import Mathlib

/-!
Verification of the trivy-kubernetes BOM pipeline against its source.

The Go sources are shallowly embedded: Go strings become Lean `String`,
Go `map[string]T` values become association lists (`List (String × T)`),
fallible Go functions returning `(T, error)` become `Except ε T`, and the
string primitives of Go's `strings` package are given faithful list-based
models (`goSplitChar` for `strings.Split` with a one-character separator,
`goTrimLeading` for `strings.TrimPrefix`, and so on).
-/

namespace TrivyK8s

/-! ## Association lists modelling Go maps -/

/-- Lookup in an association list: the value bound to the first occurrence of `k`. -/
def lookupA {α β : Type} [DecidableEq α] (m : List (α × β)) (k : α) : Option β :=
  match m with
  | [] => none
  | (k', v) :: t => if k' = k then some v else lookupA t k

/-- Go map assignment `m[k] = v`: replace the first binding of `k`, or append. -/
def setA {α β : Type} [DecidableEq α] (m : List (α × β)) (k : α) (v : β) : List (α × β) :=
  match m with
  | [] => [(k, v)]
  | (k', v') :: t => if k' = k then (k, v) :: t else (k', v') :: setA t k v

/-! ## Models of Go `strings` primitives -/

/-- Accumulator loop behind `goSplitChar`. -/
def goSplitCharAux (c : Char) : List Char → List Char → List (List Char)
  | [], acc => [acc.reverse]
  | x :: t, acc =>
    if x = c then acc.reverse :: goSplitCharAux c t []
    else goSplitCharAux c t (x :: acc)

/-- Go `strings.Split(s, string(c))` for a one-character separator. -/
def goSplitChar (s : String) (c : Char) : List String :=
  (goSplitCharAux c s.data []).map (fun l => ⟨l⟩)

/-- Go `strings.Contains(s, string(c))` for a one-character substring. -/
def goContainsChar (s : String) (c : Char) : Bool :=
  s.data.contains c

/-- Go `strings.HasPrefix(s, p)`. -/
def goStartsWith (s p : String) : Bool :=
  p.data.isPrefixOf s.data

/-- Go `strings.HasSuffix(s, p)`. -/
def goEndsWith (s p : String) : Bool :=
  p.data.isSuffixOf s.data

/-- Go `strings.TrimPrefix(s, p)`. -/
def goTrimLeading (s p : String) : String :=
  if goStartsWith s p then ⟨s.data.drop p.data.length⟩ else s

/-- Loop behind `goIndexSub`. -/
def goIndexSubAux (sub : List Char) : List Char → Nat → Option Nat
  | [], i => if sub.isEmpty then some i else none
  | x :: t, i =>
    if sub.isPrefixOf (x :: t) then some i else goIndexSubAux sub t (i + 1)

/-- Go `strings.Index(s, sub)` as an `Option` (Go returns `-1` for no match),
counting in characters. -/
def goIndexSub (s sub : String) : Option Nat :=
  goIndexSubAux sub.data s.data 0

/-- Go `strings.Contains(s, sub)` for a general substring. -/
def goContainsSub (s sub : String) : Bool :=
  (goIndexSub s sub).isSome

/-- Membership of a character in a Go `strings.Trim` cutset. -/
def charIn (cutset : String) (c : Char) : Bool :=
  decide (c ∈ cutset.data)

/-- Drop characters satisfying `p` from both ends of a list. -/
def trimBoth (p : Char → Bool) (l : List Char) : List Char :=
  ((l.dropWhile p).reverse.dropWhile p).reverse

/-- Go `strings.Trim(s, cutset)`: remove leading and trailing characters that
occur in `cutset`. -/
def goTrimCut (s cutset : String) : String :=
  ⟨trimBoth (charIn cutset) s.data⟩

/-- Go `unicode.IsSpace` restricted to the Latin-1 range (the only space
characters that occur in version strings). -/
def goIsSpace (c : Char) : Bool :=
  c = ' ' || c = '\t' || c = '\n' || c = Char.ofNat 11 || c = Char.ofNat 12 ||
    c = '\r' || c = Char.ofNat 0x85 || c = Char.ofNat 0xA0

/-- Go `strings.TrimSpace(s)`. -/
def goTrimSpace (s : String) : String :=
  ⟨trimBoth goIsSpace s.data⟩

/-! ## Image reference parsing (`pkg/k8s/k8s.go`): `extractDigest`, `GetContainer` -/

/-- `digest.Canonical` of the OCI go-digest package, i.e. `"sha256"`. -/
def digestCanonicalName : String := "sha256"

/-- `containerimage.DefaultRegistry` of go-containerregistry. -/
def defaultRegistry : String := "index.docker.io"

/-- Result of `utils.ParseReference` / go-containerregistry `name.ParseReference`:
the three accessors `GetContainer` reads from the parsed reference. -/
structure ImageRef where
  registryStr : String
  repositoryStr : String
  identifier : String
  deriving DecidableEq, Repr

/-- The `bom.Container` record built by `GetContainer`. -/
structure BomContainer where
  Repository : String
  Registry : String
  ID : String
  Digest : String
  Version : String
  deriving DecidableEq, Repr

/-- The two error exits of `GetContainer`: name parse failure and digest parse failure. -/
inductive ContainerError where
  | parseName (imageName : String)
  | parseDigest (imageId imageName : String)
  deriving DecidableEq, Repr

/-- `extractDigest` (k8s.go): take the part after the first `@` when one is
present, then strip a `"sha256:"` prefix. -/
def extractDigest (imageId : String) : String :=
  let imageId :=
    if goContainsChar imageId '@' then (goSplitChar imageId '@').getD 1 "" else imageId
  goTrimLeading imageId (digestCanonicalName ++ ":")

/-- The name-normalisation step at the top of `GetContainer`: drop any `@...`
suffix from the declared image name before parsing it. -/
def stripAtName (imageName : String) : String :=
  if goContainsChar imageName '@' then (goSplitChar imageName '@').getD 0 "" else imageName

/-- `GetContainer` (k8s.go), parameterised by the external image-name grammar
`parseReference` (`utils.ParseReference`, not part of this package). -/
def GetContainer (parseReference : String → Except String ImageRef)
    (imageName imageId : String) : Except ContainerError BomContainer :=
  let imageName := stripAtName imageName
  match parseReference imageName with
  | .error _ => .error (.parseName imageName)
  | .ok imageRef =>
    let imageDigest := extractDigest imageId
    if imageDigest.utf8ByteSize ≠ 32 * 2 then
      .error (.parseDigest imageId imageName)
    else
      let repoName := imageRef.repositoryStr
      let registryName := imageRef.registryStr
      let repoName :=
        if registryName = defaultRegistry then goTrimLeading repoName "library/" else repoName
      let version := imageRef.identifier
      .ok { Repository := repoName
            Registry := registryName
            ID := repoName ++ ":" ++ version
            Digest := imageDigest
            Version := version }

/-- A hexadecimal digit, as in the claim's "64 hexadecimal characters". -/
def isHexDigitChar (c : Char) : Bool :=
  c.isDigit || ('a' ≤ c && c ≤ 'f') || ('A' ≤ c && c ≤ 'F')

/-- A string of exactly 64 hexadecimal characters. -/
def isHex64 (s : String) : Bool :=
  s.length = 64 && s.data.all isHexDigitChar

/-! Concrete inputs used to exercise `GetContainer`. -/

/-- A parse function standing for the image-name grammar on the inputs used
below: accepts every name as the Docker Hub official nginx image. -/
def sampleParse : String → Except String ImageRef := fun _ =>
  .ok { registryStr := "index.docker.io", repositoryStr := "library/nginx", identifier := "1.25" }

/-- The reference `sampleParse` returns. -/
def sampleRef : ImageRef :=
  { registryStr := "index.docker.io", repositoryStr := "library/nginx", identifier := "1.25" }

/-- A 64-character string that is not hexadecimal. -/
def zDigest : String := ⟨List.replicate 64 'z'⟩

/-- A genuine 64-hex-character image id with algorithm prefix. -/
def hexDigest64 : String :=
  "a1b2c3d4e5f60718293a4b5c6d7e8f90a1b2c3d4e5f60718293a4b5c6d7e8f90"

/-! ## Version trimming (`k8sVersions`, `trimString`) and node facts (`NodeInfo`) -/

/-- `k8sVersions` (k8s.go): cut a version string at the first distro build-tag
marker `+rke2`, `-rke2` or `-k3s`. -/
def k8sVersions (version : String) : String :=
  match goIndexSub version "+rke2" with
  | some i => ⟨version.data.take i⟩
  | none =>
    match goIndexSub version "-rke2" with
    | some i => ⟨version.data.take i⟩
    | none =>
      match goIndexSub version "-k3s" with
      | some i => ⟨version.data.take i⟩
      | none => version

/-- `trimString` (k8s.go): `strings.Trim` by each cutset in `trimValues` in
order, then `strings.TrimSpace`. -/
def trimString (version : String) (trimValues : List String) : String :=
  goTrimSpace (trimValues.foldl (fun v t => goTrimCut v t) version)

/-- The fields of `corev1.NodeSystemInfo` read by `NodeInfo`. -/
structure NodeSystemInfo where
  kubeletVersion : String
  containerRuntimeVersion : String
  osImage : String
  kernelVersion : String
  operatingSystem : String
  architecture : String
  deriving DecidableEq, Repr

/-- One entry of `node.Status.Images`: the image's name list. -/
structure NodeImage where
  names : List String
  deriving DecidableEq, Repr

/-- The parts of a `corev1.Node` read by this package. -/
structure Node where
  name : String
  labels : List (String × String)
  nodeInfo : NodeSystemInfo
  images : List NodeImage
  deriving DecidableEq, Repr

/-- The `bom.NodeInfo` record. -/
structure BomNodeInfo where
  NodeName : String
  KubeletVersion : String
  ContainerRuntimeVersion : String
  OsImage : String
  Properties : List (String × String)
  Images : List String
  deriving DecidableEq, Repr

/-- The `bom.Component` record. -/
structure Component where
  Namespace : String
  Name : String
  Version : String
  Properties : List (String × String)
  Containers : List BomContainer
  deriving DecidableEq, Repr

/-- The `bom.Result` record (the Go field `Type` is spelled `Type'` because
`Type` is reserved in Lean). -/
structure BomResult where
  ID : String
  Type' : String
  Version : String
  Properties : List (String × String)
  Components : List Component
  NodesInfo : List BomNodeInfo
  deriving DecidableEq, Repr

/-- Go `_, ok := m[k]` on a string-keyed map. -/
def hasKey (m : List (String × String)) (k : String) : Bool :=
  (lookupA m k).isSome

/-- `NodeInfo` (k8s.go): build the BOM node record for one node; the `Images`
field is Go's zero value here and is filled in by `CollectNodes`. -/
def NodeInfo (node : Node) : BomNodeInfo :=
  let nodeRole := "worker"
  let nodeRole := if hasKey node.labels "node-role.kubernetes.io/control-plane" then "master" else nodeRole
  let nodeRole := if hasKey node.labels "node-role.kubernetes.io/master" then "master" else nodeRole
  { NodeName := node.name
    KubeletVersion := trimString (k8sVersions node.nodeInfo.kubeletVersion) ["v", "V"]
    ContainerRuntimeVersion := node.nodeInfo.containerRuntimeVersion
    OsImage := node.nodeInfo.osImage
    Properties := [("NodeRole", nodeRole),
                   ("HostName", node.name),
                   ("KernelVersion", node.nodeInfo.kernelVersion),
                   ("OperatingSystem", node.nodeInfo.operatingSystem),
                   ("Architecture", node.nodeInfo.architecture)]
    Images := [] }

/-- `getClusterBomInfo` (k8s.go), with the cluster name and raw server version
(the results of `ClusterNameVersion`) passed in. -/
def getClusterBomInfo (components : List Component) (nodeInfo : List BomNodeInfo)
    (name version : String) : BomResult :=
  { Components := components
    ID := "k8s.io/kubernetes"
    Type' := "Cluster"
    Version := trimString version ["v", "V"]
    Properties := [("Name", name), ("Type", "cluster")]
    NodesInfo := nodeInfo }

/-- A node whose reported kubelet version ends in a `v`, exercising the
trailing side of `strings.Trim`. -/
def sampleNodeTrim : Node :=
  { name := "node-1"
    labels := []
    nodeInfo := { kubeletVersion := "v1.27.3v"
                  containerRuntimeVersion := "containerd://1.7.0"
                  osImage := "Ubuntu 22.04"
                  kernelVersion := "6.1.0"
                  operatingSystem := "linux"
                  architecture := "amd64" }
    images := [] }

/-! ## Component naming tables and lookups (`k8s.go` vars and
`upstreamOrgByName` / `upstreamRepoByName`) -/

/-- Go `strings.ToLower` (the table entries are ASCII). -/
def goToLower (s : String) : String :=
  ⟨s.data.map Char.toLower⟩

/-- The `UpstreamOrgName` table: organization → comma-separated member names. -/
def UpstreamOrgName : List (String × String) :=
  [("k8s.io", "controller-manager,kubelet,apiserver,kubectl,kubernetes,kube-scheduler,kube-proxy,cloud-provider,ingress-nginx"),
   ("sigs.k8s.io", "secrets-store-csi-driver"),
   ("go.etcd.io", "etcd/v3")]

/-- The `UpstreamRepoName` table: raw discovered name → canonical short name. -/
def UpstreamRepoName : List (String × String) :=
  [("kube-controller-manager", "controller-manager"),
   ("kubelet", "kubelet"),
   ("kube-apiserver", "apiserver"),
   ("kubectl", "kubectl"),
   ("kubernetes", "kubernetes"),
   ("kube-scheduler", "kube-scheduler"),
   ("kube-proxy", "kube-proxy"),
   ("api server", "apiserver"),
   ("etcd", "etcd/v3"),
   ("cloud-controller-manager", "cloud-provider"),
   ("secrets-store-csi-driver", "secrets-store-csi-driver")]

/-- The `CoreComponentPropertyType` table: canonical name → component type. -/
def CoreComponentPropertyType : List (String × String) :=
  [("controller-manager", "controlPlane"),
   ("apiserver", "controlPlane"),
   ("kube-scheduler", "controlPlane"),
   ("etcd/v3", "controlPlane"),
   ("cloud-provider", "controlPlane"),
   ("kube-proxy", "node")]

/-- The membership test of the inner loop of `upstreamOrgByName`:
some comma-separated member of `members`, space-trimmed, equals the
lower-cased component. -/
def orgMemberMatch (members component : String) : Bool :=
  (goSplitChar members ',').any (fun c => goTrimSpace c = goToLower component)

/-- Loop of `upstreamOrgByName` over the organization table. -/
def upstreamOrgByNameAux (component : String) : List (String × String) → String
  | [] => ""
  | (key, components) :: t =>
    if orgMemberMatch components component then key
    else upstreamOrgByNameAux component t

/-- `upstreamOrgByName` (k8s.go): the organization owning `component`, or `""`. -/
def upstreamOrgByName (component : String) : String :=
  upstreamOrgByNameAux component UpstreamOrgName

/-- `upstreamRepoByName` (k8s.go): canonical short name, identity if absent. -/
def upstreamRepoByName (component : String) : String :=
  match lookupA UpstreamRepoName component with
  | some val => val
  | none => component

/-- The naming path of `PodInfo` when the `app.kubernetes.io/name` label is
absent (k8s.go 651-661): map the label-selector value through the repo table,
then prefix the owning organization when there is one. -/
def componentFullName (componentValue : String) : String :=
  let name := upstreamRepoByName componentValue
  let orgName := upstreamOrgByName name
  if orgName.length > 0 then orgName ++ "/" ++ name else name

/-! ## Docker credential resolution (`MapContainerNamesToDockerAuths`,
`GetWildcardServers`, `matchSubDomain`) -/

/-- The `docker.Auth` credential pair. -/
structure DockerAuth where
  Username : String
  Password : String
  deriving DecidableEq, Repr

/-- `GetWildcardServers` (k8s.go): the keys of `auths` that start with `*.`. -/
def GetWildcardServers (auths : List (String × DockerAuth)) : List String :=
  auths.foldl (fun acc p => if goStartsWith p.1 "*." then acc ++ [p.1] else acc) []

/-- Go `strings.Replace(domain, "*", "", 1)`: delete the first `*`. -/
def goRemoveFirstStar : List Char → List Char
  | [] => []
  | c :: t => if c = '*' then t else c :: goRemoveFirstStar t

/-- The wildcard-stripped form of a domain used by `matchSubDomain`. -/
def goReplaceStarOnce (domain : String) : String :=
  ⟨goRemoveFirstStar domain.data⟩

/-- `matchSubDomain` (k8s.go): the first wildcard server whose starred-out
form is a suffix of `subDomain`, else `""`. -/
def matchSubDomain (wildcardServers : List String) (subDomain : String) : String :=
  match wildcardServers with
  | [] => ""
  | domain :: t =>
    if goEndsWith subDomain (goReplaceStarOnce domain) then domain
    else matchSubDomain t subDomain

/-- `MapContainerNamesToDockerAuths` (k8s.go), parameterised by the external
`docker.GetServerFromImageRef`. -/
def MapContainerNamesToDockerAuths (getServerFromImageRef : String → Except String String)
    (imageRef : String) (auths : List (String × DockerAuth)) :
    Except String (Option DockerAuth) :=
  let wildcardServers := GetWildcardServers auths
  match getServerFromImageRef imageRef with
  | .error e => .error e
  | .ok server =>
    match lookupA auths server with
    | some auth => .ok (some auth)
    | none =>
      if wildcardServers.length > 0 then
        let wildcardDomain := matchSubDomain wildcardServers server
        if wildcardDomain.length > 0 then
          match lookupA auths wildcardDomain with
          | some auth => .ok (some auth)
          | none => .ok none
        else .ok none
      else .ok none

/-- Image-reference-to-server function used by the concrete credential
examples: the reference is already a bare registry host. -/
def identServer : String → Except String String := fun r => .ok r

def authA : DockerAuth := ⟨"alice", "pw1"⟩

def authB : DockerAuth := ⟨"bob", "pw2"⟩

/-- A merged mapping with one exact server and one wildcard server. -/
def wildAuths : List (String × DockerAuth) :=
  [("registry.io", authA), ("*.example.com", authB)]

/-! ## Docker registry credential merging (`mapDockerRegistryServersToAuths`) -/

/-- The secret types the merge loop distinguishes
(`kubernetes.io/dockerconfigjson`, `kubernetes.io/dockercfg`, anything else). -/
inductive SecretType where
  | dockerConfigJson
  | dockercfg
  | other
  deriving DecidableEq, Repr

/-- An image pull secret: its type and, when present, the payload stored under
the required data key (`.dockerconfigjson` resp. `.dockercfg`). -/
structure Secret where
  stype : SecretType
  data : Option String
  deriving DecidableEq, Repr

/-- Body of the `for authKey, auth := range dockerConfig.Auths` merge
(k8s.go 825-837) for one entry, given the resolved registry `server`. -/
def mergeAuth (auths : List (String × DockerAuth)) (multiSecretSupport : Bool)
    (server : String) (auth : DockerAuth) : List (String × DockerAuth) :=
  match lookupA auths server with
  | some a =>
    if multiSecretSupport then
      setA auths server ⟨a.Username ++ "," ++ auth.Username, a.Password ++ "," ++ auth.Password⟩
    else setA auths server auth
  | none => setA auths server auth

/-- The inner loop of `mapDockerRegistryServersToAuths` over one decoded
config's `(authKey, auth)` entries; `serverOf` is the external
`docker.GetServerFromDockerAuthKey`, whose error aborts the whole merge. -/
def mergeConfigAuths (serverOf : String → Except String String) (multi : Bool) :
    List (String × DockerAuth) → List (String × DockerAuth) →
    Except String (List (String × DockerAuth))
  | auths, [] => .ok auths
  | auths, (authKey, auth) :: rest =>
    match serverOf authKey with
    | .error e => .error e
    | .ok server => mergeConfigAuths serverOf multi (mergeAuth auths multi server auth) rest

/-- The outer loop of `mapDockerRegistryServersToAuths` over the secrets;
`readConfig` is the external `docker.Config.Read` decode (payload and
legacy flag to decoded `(authKey, auth)` pairs in iteration order). -/
def mapDockerAuthsAux (readConfig : String → Bool → Except String (List (String × DockerAuth)))
    (serverOf : String → Except String String) (multi : Bool) :
    List Secret → List (String × DockerAuth) → Except String (List (String × DockerAuth))
  | [], auths => .ok auths
  | secret :: rest, auths =>
    match secret.stype, secret.data with
    | SecretType.dockerConfigJson, some data =>
      match readConfig data false with
      | .error e => .error e
      | .ok cfgAuths =>
        match mergeConfigAuths serverOf multi auths cfgAuths with
        | .error e => .error e
        | .ok auths' => mapDockerAuthsAux readConfig serverOf multi rest auths'
    | SecretType.dockercfg, some data =>
      match readConfig data true with
      | .error e => .error e
      | .ok cfgAuths =>
        match mergeConfigAuths serverOf multi auths cfgAuths with
        | .error e => .error e
        | .ok auths' => mapDockerAuthsAux readConfig serverOf multi rest auths'
    | _, _ => mapDockerAuthsAux readConfig serverOf multi rest auths

/-- `mapDockerRegistryServersToAuths` (k8s.go): merge the docker-credential
secrets into one registry-server-keyed map. -/
def mapDockerRegistryServersToAuths
    (readConfig : String → Bool → Except String (List (String × DockerAuth)))
    (serverOf : String → Except String String)
    (imagePullSecrets : List Secret) (multiSecretSupport : Bool) :
    Except String (List (String × DockerAuth)) :=
  mapDockerAuthsAux readConfig serverOf multiSecretSupport imagePullSecrets []

/-- Resolve the auth keys of one decoded config to registry servers, keeping
entry order (the decode stage of the merge, without the merging). -/
def resolveServers (serverOf : String → Except String String) :
    List (String × DockerAuth) → Except String (List (String × DockerAuth))
  | [] => .ok []
  | (authKey, auth) :: rest =>
    match serverOf authKey with
    | .error e => .error e
    | .ok server => (resolveServers serverOf rest).map (fun l => (server, auth) :: l)

/-- The full decode stage: the server-resolved `(server, auth)` entries of all
docker-credential secrets, in merge order. -/
def collectAuthEntries (readConfig : String → Bool → Except String (List (String × DockerAuth)))
    (serverOf : String → Except String String) :
    List Secret → Except String (List (String × DockerAuth))
  | [] => .ok []
  | secret :: rest =>
    match secret.stype, secret.data with
    | SecretType.dockerConfigJson, some data =>
      match readConfig data false with
      | .error e => .error e
      | .ok cfgAuths =>
        match resolveServers serverOf cfgAuths with
        | .error e => .error e
        | .ok entries => (collectAuthEntries readConfig serverOf rest).map (fun l => entries ++ l)
    | SecretType.dockercfg, some data =>
      match readConfig data true with
      | .error e => .error e
      | .ok cfgAuths =>
        match resolveServers serverOf cfgAuths with
        | .error e => .error e
        | .ok entries => (collectAuthEntries readConfig serverOf rest).map (fun l => entries ++ l)
    | _, _ => collectAuthEntries readConfig serverOf rest

/-- Pure merge of already-resolved `(server, auth)` entries into an
accumulator map. -/
def mergeFold (multi : Bool) (auths : List (String × DockerAuth))
    (entries : List (String × DockerAuth)) : List (String × DockerAuth) :=
  entries.foldl (fun m p => mergeAuth m multi p.1 p.2) auths

/-- Comma-concatenation of two credentials, earlier one first. -/
def concatAuth (a b : DockerAuth) : DockerAuth :=
  ⟨a.Username ++ "," ++ b.Username, a.Password ++ "," ++ b.Password⟩

/-- The credential that a stream of same-server auths merges to, on top of an
existing binding `o`. -/
def mergedInto (o : Option DockerAuth) (l : List DockerAuth) : Option DockerAuth :=
  l.foldl (fun acc b =>
    match acc with
    | some a => some (concatAuth a b)
    | none => some b) o

def authC : DockerAuth := ⟨"carol", "pw3"⟩

/-- Concrete decode function: two well-known payloads. -/
def readCfg0 : String → Bool → Except String (List (String × DockerAuth)) := fun data _ =>
  if data = "d1" then .ok [("registry.io", authA), ("quay.io", authC)]
  else if data = "d2" then .ok [("registry.io", authB)]
  else .error "bad payload"

/-- Concrete auth-key-to-server function: keys are already servers. -/
def serverOf0 : String → Except String String := fun k => .ok k

/-- Two docker secrets sharing the server `registry.io`, plus an ignored
non-docker secret. -/
def secrets0 : List Secret :=
  [⟨SecretType.dockerConfigJson, some "d1"⟩,
   ⟨SecretType.dockercfg, some "d2"⟩,
   ⟨SecretType.other, some "x"⟩]

/-- The decoded entry stream of `secrets0`. -/
def entries0 : List (String × DockerAuth) :=
  [("registry.io", authA), ("quay.io", authC), ("registry.io", authB)]

/-! ## Pods and container-status correlation (`getImageID`,
`getImageIDsByStatuses`) -/

/-- A pod spec container: the field the pipeline reads. -/
structure ContainerSpec where
  image : String
  deriving DecidableEq, Repr

/-- A `pod.Status.ContainerStatuses` entry: the fields the pipeline reads. -/
structure ContainerStatus where
  image : String
  imageID : String
  deriving DecidableEq, Repr

/-- A `corev1.LocalObjectReference` (pull-secret reference). -/
structure LocalObjectReference where
  name : String
  deriving DecidableEq, Repr

/-- The fields of a `corev1.PodSpec` this package reads. -/
structure PodSpec where
  containers : List ContainerSpec
  imagePullSecrets : List LocalObjectReference
  serviceAccountName : String
  deriving DecidableEq, Repr

/-- The fields of a `corev1.Pod` this package reads. -/
structure Pod where
  name : String
  namespace' : String
  labels : List (String × String)
  specContainers : List ContainerSpec
  containerStatuses : List ContainerStatus
  deriving DecidableEq, Repr

/-- `getImageID` (k8s.go): keep a bare `sha256:` id, or the `sha256:`-prefixed
part after `@`; anything else yields `""`. -/
def getImageID (image : String) : String :=
  if goStartsWith image (digestCanonicalName ++ ":") then image
  else
    let imageParts := goSplitChar image '@'
    if imageParts.length > 1 &&
        goStartsWith (imageParts.getD 1 "") (digestCanonicalName ++ ":") then
      imageParts.getD 1 ""
    else ""

/-- The `statusMap` of `getImageIDsByStatuses`: status image → status image id,
built by Go map assignment (later entries overwrite). -/
def buildStatusMap (statuses : List ContainerStatus) : List (String × String) :=
  statuses.foldl (fun m st => setA m st.image st.imageID) []

/-- `getImageIDsByStatuses` (k8s.go) on the container and status lists:
positional correlation in the 1-container/1-status case, otherwise match by
declared image with fallback to the declared image itself. -/
def imageIDsOf (cs : List ContainerSpec) (sts : List ContainerStatus) : List String :=
  match cs, sts with
  | [_], [st] => [getImageID st.imageID]
  | cs, sts =>
    let statusMap := buildStatusMap sts
    cs.map (fun container =>
      match lookupA statusMap container.image with
      | some id => getImageID id
      | none => getImageID container.image)

/-- `getImageIDsByStatuses` (k8s.go). -/
def getImageIDsByStatuses (pod : Pod) : List String :=
  imageIDsOf pod.specContainers pod.containerStatuses

/-! ## Pod components (`PodInfo`, `findComponentVersion`, `collectComponents`,
`CollectNodes`, `CreateBomComponents`) -/

/-- Go label read `labels[k]` with the zero value `""` for a missing key. -/
def getLabel (m : List (String × String)) (k : String) : String :=
  (lookupA m k).getD ""

/-- `findComponentVersion` (k8s.go): first container with a distro-tagged
version wins (distro-trimmed), else the first whose `ID` contains `name`. -/
def findComponentVersion : List BomContainer → String → String
  | [], _ => ""
  | c :: rest, name =>
    if goContainsSub c.Version "rke2" || goContainsSub c.Version "k3s" then
      k8sVersions c.Version
    else if goContainsSub c.ID name then c.Version
    else findComponentVersion rest name

/-- The container loop of `PodInfo`: one `GetContainer` per spec container and
its positional image id, parse failures skipped. -/
def buildContainers (parseReference : String → Except String ImageRef) :
    List ContainerSpec → List String → List BomContainer
  | [], _ => []
  | _ :: _, [] => []
  | c :: cs, id :: ids =>
    match GetContainer parseReference c.image id with
    | .ok container => container :: buildContainers parseReference cs ids
    | .error _ => buildContainers parseReference cs ids

/-- `PodInfo` (k8s.go): build one BOM component from a matched pod.  The Go
function's error result is always `nil`; the `Except` mirrors its signature. -/
def PodInfo (parseReference : String → Except String ImageRef) (pod : Pod)
    (labelSelector : String) : Except String Component :=
  let ids := getImageIDsByStatuses pod
  let containers := buildContainers parseReference pod.specContainers ids
  let labels := pod.labels
  let name := getLabel labels "app.kubernetes.io/name"
  let version := getLabel labels "app.kubernetes.io/version"
  let props := setA (setA [] "Name" pod.name) "Type" (getLabel labels "app.kubernetes.io/component")
  let componentValue := getLabel labels labelSelector
  let name1 := if name = "" then upstreamRepoByName componentValue else name
  let props1 :=
    if name = "" then
      match lookupA CoreComponentPropertyType (upstreamRepoByName componentValue) with
      | some val => setA props "Type" val
      | none => props
    else props
  let orgName := upstreamOrgByName name1
  let name2 := if orgName.length > 0 then orgName ++ "/" ++ name1 else name1
  let version1 :=
    if version = "" then
      trimString (findComponentVersion containers (getLabel labels labelSelector)) ["v", "V"]
    else version
  .ok { Namespace := pod.namespace'
        Name := name2
        Version := version1
        Properties := props1
        Containers := containers }

/-- The classified errors of the cluster data source. -/
inductive KErr where
  | notFound
  | forbidden
  | other (msg : String)
  deriving DecidableEq, Repr

/-- `k8sapierror.IsNotFound`. -/
def KErr.isNotFound : KErr → Bool
  | .notFound => true
  | _ => false

/-- `k8sapierror.IsForbidden`. -/
def KErr.isForbidden : KErr → Bool
  | .forbidden => true
  | _ => false

/-- `collectComponents` (k8s.go), over a pod-listing function standing for
`getPodsInfo` (selector, namespace): a listing error skips that selector, a
(never occurring) `PodInfo` error skips that pod; no error is ever returned. -/
def collectComponents (parseReference : String → Except String ImageRef)
    (listPods : String → String → Except KErr (List Pod))
    (labels : List (String × String)) : Except KErr (List Component) :=
  .ok (labels.foldl (fun components p =>
    match listPods p.2 p.1 with
    | .error _ => components
    | .ok pods =>
      pods.foldl (fun acc pod =>
        match PodInfo parseReference pod p.2 with
        | .error _ => acc
        | .ok pi => acc ++ [pi]) components) [])

/-- `CollectNodes` (k8s.go), over the result of the node listing: not-found or
forbidden degrades to an empty node list; any other error is returned; on
success each node gets its `NodeInfo` with the component-image intersection. -/
def CollectNodes (listNodes : Except KErr (List Node)) (components : List Component) :
    Except KErr (List BomNodeInfo) :=
  match listNodes with
  | .error e => if e.isNotFound || e.isForbidden then .ok [] else .error e
  | .ok nodes =>
    .ok (nodes.map (fun node =>
      let nf := NodeInfo node
      let images := node.images.foldl (fun images image =>
        components.foldl (fun images c =>
          c.Containers.foldl (fun images co =>
            let id := co.Registry ++ "/" ++ co.Repository ++ ":" ++ co.Version
            if image.names.contains id then images ++ [id] else images) images) images) []
      { nf with Images := images }))

/-- `CreateBomComponents` (k8s.go): the control-plane and addon label sets,
each fed to `collectComponents`, with errors propagated (which
`collectComponents` never produces). -/
def CreateBomComponents (parseReference : String → Except String ImageRef)
    (listPods : String → String → Except KErr (List Pod))
    (isOpenShift : Bool) (namespace' : String) : Except KErr (List Component) :=
  let labels :=
    if namespace' ≠ "" && isOpenShift then
      [("openshift-kube-apiserver", "apiserver"),
       ("openshift-kube-controller-manager", "kube-controller-manager"),
       ("openshift-kube-scheduler", "scheduler"),
       ("openshift-etcd", "etcd")]
    else [(namespace', "component")]
  match collectComponents parseReference listPods labels with
  | .error e => .error e
  | .ok components =>
    let addonLabels :=
      if namespace' = "" || namespace' = "kube-system" then
        setA [(namespace', "app.kubernetes.io/component=controller")] "kube-system" "k8s-app"
      else [(namespace', "app.kubernetes.io/component=controller")]
    match collectComponents parseReference listPods addonLabels with
    | .error e => .error e
    | .ok addons => .ok (components ++ addons)

/-! ## Unstructured resources (`unstructured.Unstructured` and the nested
accessors of `k8s.io/apimachinery`) -/

/-- A JSON-like value of an unstructured resource object.  Scalars other than
strings are collapsed into `other`: the embedded code only ever reads string
leaves. -/
inductive UVal where
  | str (s : String)
  | arr (items : List UVal)
  | map (fields : List (String × UVal))
  | other
  deriving Repr

/-- `unstructured.NestedFieldNoCopy`: walk `keys`; a missing key is "not
found" (`none`), a non-map along the way is an error. -/
def nestedField (val : UVal) : List String → Except String (Option UVal)
  | [] => .ok (some val)
  | key :: rest =>
    match val with
    | UVal.map fields =>
      match lookupA fields key with
      | some v => nestedField v rest
      | none => .ok none
    | _ => .error "value at path is not a map"

/-- `unstructured.NestedSlice`: the final value must additionally be a slice. -/
def nestedSlice (obj : UVal) (keys : List String) : Except String (Option (List UVal)) :=
  match nestedField obj keys with
  | .error e => .error e
  | .ok none => .ok none
  | .ok (some (UVal.arr items)) => .ok (some items)
  | .ok (some _) => .error "value at path is not a slice"

/-- `unstructured.NestedString`: the final value must additionally be a string. -/
def nestedString (obj : UVal) (keys : List String) : Except String (Option String) :=
  match nestedField obj keys with
  | .error e => .error e
  | .ok none => .ok none
  | .ok (some (UVal.str s)) => .ok (some s)
  | .ok (some _) => .error "value at path is not a string"

/-- `unstructured.NestedMap` (without the deep copy): the final value must be
a map. -/
def nestedMap (obj : UVal) (keys : List String) :
    Except String (Option (List (String × UVal))) :=
  match nestedField obj keys with
  | .error e => .error e
  | .ok none => .ok none
  | .ok (some (UVal.map fields)) => .ok (some fields)
  | .ok (some _) => .error "value at path is not a map"

/-- The parts of an `unstructured.Unstructured` this package reads: the kind
and the object tree. -/
structure UnstructuredResource where
  kind : String
  obj : List (String × UVal)

/-- `unstructured.GetNamespace()`: `metadata.namespace`, `""` on anything
unexpected. -/
def getNamespaceU (obj : List (String × UVal)) : String :=
  match nestedString (UVal.map obj) ["metadata", "namespace"] with
  | .ok (some s) => s
  | _ => ""

/-- The workload kind constants of k8s.go. -/
def KindPod : String := "Pod"

def KindJob : String := "Job"

def KindCronJob : String := "CronJob"

def KindReplicaSet : String := "ReplicaSet"

def KindReplicationController : String := "ReplicationController"

def KindStatefulSet : String := "StatefulSet"

def KindDaemonSet : String := "DaemonSet"

def KindDeployment : String := "Deployment"

/-! ## Artifact extraction (`pkg/artifacts/artifacts.go`) -/

/-- The `Artifact` record of `pkg/artifacts`. -/
structure Artifact where
  Namespace : String
  Kind : String
  Name : String
  Images : List String
  RawResource : List (String × UVal)

/-- The entry loop of `extractImages`: each container entry must be a map
(Go type-asserts and would panic otherwise, modelled as an error); a present
`image` field is appended, an absent one is skipped. -/
def extractImagesLoop : List UVal → Except String (List String)
  | [] => .ok []
  | container :: rest =>
    match container with
    | UVal.map fields =>
      match nestedString (UVal.map fields) ["image"] with
      | .error e => .error e
      | .ok none => extractImagesLoop rest
      | .ok (some name) => (extractImagesLoop rest).map (fun l => name :: l)
    | _ => .error "interface conversion: not a map"

/-- `extractImages` (artifacts.go): the `image` fields of the entries of the
slice at `keys`; an absent slice contributes nothing. -/
def extractImages (obj : UVal) (keys : List String) : Except String (List String) :=
  match nestedSlice obj keys with
  | .error e => .error e
  | .ok none => .ok []
  | .ok (some containers) => extractImagesLoop containers

/-- The kind-dependent pod-template path of `FromResource` (artifacts.go)
and `getWorkloadPodSpec` shapes. -/
def kindKeys (kind : String) : List String :=
  if kind = KindPod then ["spec"]
  else if kind = KindCronJob then ["spec", "jobTemplate", "spec", "template", "spec"]
  else ["spec", "template", "spec"]

/-- `FromResource` (artifacts.go): images of `containers`, then
`ephemeralContainers`, then `initContainers` under the kind-dependent path,
plus metadata. -/
def FromResource (resource : UnstructuredResource) : Except String Artifact :=
  let nestedKeys := kindKeys resource.kind
  match extractImages (UVal.map resource.obj) (nestedKeys ++ ["containers"]) with
  | .error e => .error e
  | .ok containersImages =>
    match extractImages (UVal.map resource.obj) (nestedKeys ++ ["ephemeralContainers"]) with
    | .error e => .error e
    | .ok ephemeralContainersImages =>
      match extractImages (UVal.map resource.obj) (nestedKeys ++ ["initContainers"]) with
      | .error e => .error e
      | .ok initContainersImages =>
        match nestedString (UVal.map resource.obj) ["metadata", "name"] with
        | .error e => .error e
        | .ok nameOpt =>
          .ok { Namespace := getNamespaceU resource.obj
                Kind := resource.kind
                Name := nameOpt.getD ""
                Images := containersImages ++ ephemeralContainersImages ++ initContainersImages
                RawResource := resource.obj }

/-- The `image` field of one container entry, when the entry is a map holding
a string there. -/
def imageOfEntry (item : UVal) : Option String :=
  match item with
  | UVal.map fields =>
    match lookupA fields "image" with
    | some (UVal.str s) => some s
    | _ => none
  | _ => none

/-- Total spec-level reading of the image list at a path: the string `image`
fields of the map entries of the slice found there, nothing otherwise. -/
def imagesAtPath (obj : List (String × UVal)) (path : List String) : List String :=
  match nestedField (UVal.map obj) path with
  | .ok (some (UVal.arr items)) => items.filterMap imageOfEntry
  | _ => []

/-- A Pod resource declaring one regular, one init and one ephemeral
container. -/
def mixedPodResource : UnstructuredResource :=
  { kind := "Pod"
    obj := [("spec", UVal.map
        [("containers", UVal.arr [UVal.map [("image", UVal.str "a")]]),
         ("ephemeralContainers", UVal.arr [UVal.map [("image", UVal.str "c")]]),
         ("initContainers", UVal.arr [UVal.map [("image", UVal.str "b")]])])] }

/-- A CronJob resource with one container image `nginx:1.25` at the
doubly-nested path. -/
def cronResource : UnstructuredResource :=
  { kind := "CronJob"
    obj := [("spec", UVal.map
        [("jobTemplate", UVal.map
          [("spec", UVal.map
            [("template", UVal.map
              [("spec", UVal.map
                [("containers", UVal.arr
                  [UVal.map [("image", UVal.str "nginx:1.25")]])])])])])])] }

/-- The artifact `FromResource` produces for `cronResource`. -/
def cronArtifact : Artifact :=
  { Namespace := ""
    Kind := "CronJob"
    Name := ""
    Images := ["nginx:1.25"]
    RawResource := cronResource.obj }

/-! ## Pull-secret resolution by resource (`getWorkloadPodSpec`,
`ListImagePullSecretsByPodSpec`, `AuthByResource`) -/

/-- The part of a `corev1.ServiceAccount` this package reads. -/
structure ServiceAccount where
  imagePullSecrets : List LocalObjectReference
  deriving Repr

/-- The cluster data source operations the credential resolver needs, plus the
two external docker-package functions. -/
structure ClusterEnv where
  getServiceAccount : String → String → Except KErr ServiceAccount
  getSecret : String → String → Except KErr Secret
  readConfig : String → Bool → Except String (List (String × DockerAuth))
  serverOf : String → Except String String

/-- `serviceAccountDefault` (k8s.go). -/
def serviceAccountDefault : String := "default"

/-- `getServiceAccountByPodSpec` (k8s.go): the spec's service account, default
when unnamed. -/
def getServiceAccountByPodSpec (env : ClusterEnv) (spec : PodSpec) (ns : String) :
    Except KErr ServiceAccount :=
  let serviceAccountName :=
    if spec.serviceAccountName = "" then serviceAccountDefault else spec.serviceAccountName
  env.getServiceAccount ns serviceAccountName

/-- `ListByLocalObjectReferences` (k8s.go): resolve each named reference to a
secret; nameless references and not-found/forbidden secrets are skipped, any
other error is fatal. -/
def ListByLocalObjectReferences (env : ClusterEnv) :
    List LocalObjectReference → String → Except KErr (List Secret)
  | [], _ => .ok []
  | ref :: rest, ns =>
    if ref.name = "" then ListByLocalObjectReferences env rest ns
    else
      match env.getSecret ns ref.name with
      | .error e =>
        if e.isNotFound || e.isForbidden then ListByLocalObjectReferences env rest ns
        else .error e
      | .ok secret => (ListByLocalObjectReferences env rest ns).map (fun l => secret :: l)

/-- The tail of `ListImagePullSecretsByPodSpec` after the pull-secret
references are known: resolve them and merge the credentials. -/
def listPullSecretsCont (env : ClusterEnv) (refs : List LocalObjectReference) (ns : String) :
    Except KErr (List (String × DockerAuth)) :=
  match ListByLocalObjectReferences env refs ns with
  | .error e => .error e
  | .ok secrets =>
    match mapDockerRegistryServersToAuths env.readConfig env.serverOf secrets true with
    | .error msg => .error (KErr.other msg)
    | .ok m => .ok m

/-- `ListImagePullSecretsByPodSpec` (k8s.go): a nil pod spec yields an empty
map; otherwise the service account's pull secrets (empty when its lookup was
tolerably denied) are prepended to the spec's own. -/
def ListImagePullSecretsByPodSpec (env : ClusterEnv) (spec : Option PodSpec) (ns : String) :
    Except KErr (List (String × DockerAuth)) :=
  match spec with
  | none => .ok []
  | some spec =>
    match getServiceAccountByPodSpec env spec ns with
    | .error e =>
      if e.isNotFound || e.isForbidden then
        listPullSecretsCont env ([] ++ spec.imagePullSecrets) ns
      else .error e
    | .ok sa => listPullSecretsCont env (sa.imagePullSecrets ++ spec.imagePullSecrets) ns

/-- `mapToPodSpec` (k8s.go), with `ms.Decode` passed in as `msDecode`
(decoded spec plus optional error): a decode error is fatal only when no
containers were decoded. -/
def mapToPodSpec (msDecode : List (String × UVal) → PodSpec × Option String)
    (objectMap : List (String × UVal)) : Except String PodSpec :=
  let r := msDecode objectMap
  match r.2 with
  | some e => if r.1.containers.length = 0 then .error e else .ok r.1
  | none => .ok r.1

/-- One branch of `getWorkloadPodSpec`: `NestedMap` at `keys`, then decode. -/
def workloadPodSpecAt (msDecode : List (String × UVal) → PodSpec × Option String)
    (obj : List (String × UVal)) (keys : List String) : Except String (Option PodSpec) :=
  match nestedMap (UVal.map obj) keys with
  | .error e => .error e
  | .ok none => .error "unstructured resource do not match Pod spec"
  | .ok (some objectMap) =>
    match mapToPodSpec msDecode objectMap with
    | .error e => .error e
    | .ok ps => .ok (some ps)

/-- `getWorkloadPodSpec` (k8s.go): kind-dispatched pod-spec path; any kind
outside the workload set yields no spec and no error. -/
def getWorkloadPodSpec (msDecode : List (String × UVal) → PodSpec × Option String)
    (un : UnstructuredResource) : Except String (Option PodSpec) :=
  if un.kind = KindPod then workloadPodSpecAt msDecode un.obj ["spec"]
  else if un.kind = KindCronJob then
    workloadPodSpecAt msDecode un.obj ["spec", "jobTemplate", "spec", "template", "spec"]
  else if un.kind = KindDeployment ∨ un.kind = KindReplicaSet ∨
      un.kind = KindReplicationController ∨ un.kind = KindStatefulSet ∨
      un.kind = KindDaemonSet ∨ un.kind = KindJob then
    workloadPodSpecAt msDecode un.obj ["spec", "template", "spec"]
  else .ok none

/-- `AuthByResource` (k8s.go): pull-secret credentials for a workload
resource. -/
def AuthByResource (env : ClusterEnv) (msDecode : List (String × UVal) → PodSpec × Option String)
    (resource : UnstructuredResource) : Except KErr (List (String × DockerAuth)) :=
  match getWorkloadPodSpec msDecode resource with
  | .error e => .error (KErr.other e)
  | .ok podSpec => ListImagePullSecretsByPodSpec env podSpec (getNamespaceU resource.obj)

/-- An environment whose every lookup fails, for exercising the
kind-dispatch in isolation. -/
def env0 : ClusterEnv :=
  ⟨fun _ _ => .error KErr.notFound, fun _ _ => .error KErr.notFound,
   fun _ _ => .error "no decode", fun _ => .error "no server"⟩

/-- A decode stand-in returning an empty pod spec without error. -/
def msDecode0 : List (String × UVal) → PodSpec × Option String :=
  fun _ => (⟨[], [], ""⟩, none)

/-- A resource of a non-workload kind. -/
def serviceResource : UnstructuredResource := ⟨"Service", []⟩

/-! ## Theorems -/

example : extractDigest ("sha256:" ++ hexDigest64) = hexDigest64 := by decide
example : extractDigest ("docker.io/nginx@sha256:" ++ hexDigest64) = hexDigest64 := by decide

/-- C1, counterexample: the claim demands failure whenever the extracted digest
is not a string of 64 *hexadecimal* characters, but `GetContainer` only checks
the length.  On a 64-character digest made of `'z'`s it succeeds and stores the
non-hex string as the `Digest`. -/
theorem C1_counterexample_nonhex_digest :
    GetContainer sampleParse "nginx" zDigest =
      Except.ok { Repository := "nginx", Registry := "index.docker.io",
                  ID := "nginx:1.25", Digest := zDigest, Version := "1.25" } ∧
    isHex64 zDigest = false :=
  ⟨rfl, by decide⟩

/-- C1 (amended): for every image name accepted by the grammar, `GetContainer`
succeeds exactly when the digest extracted from the image id (the component
after the first `@`, with a `sha256:` prefix stripped) is exactly 64 bytes
long — hexadecimality is not checked — and on success the returned `Digest`
is that extracted string. -/
theorem C1_getContainer_digest_length
    (parseReference : String → Except String ImageRef) (imageName imageId : String)
    (ref : ImageRef) (h : parseReference (stripAtName imageName) = Except.ok ref) :
    ((∃ c, GetContainer parseReference imageName imageId = Except.ok c) ↔
        (extractDigest imageId).utf8ByteSize = 64) ∧
    ∀ c, GetContainer parseReference imageName imageId = Except.ok c →
      c.Digest = extractDigest imageId := by
  simp only [GetContainer, h]
  by_cases hd : (extractDigest imageId).utf8ByteSize = 64
  · simp only [hd]
    constructor
    · simp
    · intro c hc
      simp at hc
      rw [← hc]
  · constructor
    · simp [hd]
    · intro c hc
      simp [hd] at hc

/-- C1, witness for the amended theorem at concrete inputs. -/
theorem C1_getContainer_digest_length_witness :
    sampleParse (stripAtName "nginx") = Except.ok sampleRef ∧
    (((∃ c, GetContainer sampleParse "nginx" ("sha256:" ++ hexDigest64) = Except.ok c) ↔
        (extractDigest ("sha256:" ++ hexDigest64)).utf8ByteSize = 64) ∧
      ∀ c, GetContainer sampleParse "nginx" ("sha256:" ++ hexDigest64) = Except.ok c →
        c.Digest = extractDigest ("sha256:" ++ hexDigest64)) :=
  ⟨rfl, C1_getContainer_digest_length sampleParse "nginx" ("sha256:" ++ hexDigest64)
    sampleRef rfl⟩

/-- A list splits as its `takeWhile` prefix (all satisfying `p`) followed by
its `dropWhile`. -/
theorem dropWhile_decomp (p : Char → Bool) (l : List Char) :
    ∃ pre, l = pre ++ l.dropWhile p ∧ ∀ c ∈ pre, p c = true :=
  ⟨l.takeWhile p, (List.takeWhile_append_dropWhile p l).symm,
    fun _ hc => List.mem_takeWhile_imp hc⟩

/-- `trimBoth` removes only a prefix and a suffix of characters satisfying `p`. -/
theorem trimBoth_decomp (p : Char → Bool) (l : List Char) :
    ∃ pre suf, l = pre ++ trimBoth p l ++ suf ∧
      (∀ c ∈ pre, p c = true) ∧ (∀ c ∈ suf, p c = true) := by
  obtain ⟨pre1, h1, hp1⟩ := dropWhile_decomp p l
  obtain ⟨pre2, h2, hp2⟩ := dropWhile_decomp p (l.dropWhile p).reverse
  have hsplit : l.dropWhile p = trimBoth p l ++ pre2.reverse := by
    have hrev := congrArg List.reverse h2
    simpa [trimBoth] using hrev
  refine ⟨pre1, pre2.reverse, ?_, hp1, ?_⟩
  · calc l = pre1 ++ l.dropWhile p := h1
      _ = pre1 ++ (trimBoth p l ++ pre2.reverse) := by rw [hsplit]
      _ = pre1 ++ trimBoth p l ++ pre2.reverse := (List.append_assoc _ _ _).symm
  · intro c hc
    exact hp2 c (List.mem_reverse.mp hc)

/-- `goTrimCut` removes only a prefix and a suffix of cutset characters. -/
theorem goTrimCut_decomp (s cutset : String) :
    ∃ pre suf, s.data = pre ++ (goTrimCut s cutset).data ++ suf ∧
      (∀ c ∈ pre, charIn cutset c = true) ∧ (∀ c ∈ suf, charIn cutset c = true) :=
  trimBoth_decomp (charIn cutset) s.data

/-- `goTrimSpace` removes only a prefix and a suffix of space characters. -/
theorem goTrimSpace_decomp (s : String) :
    ∃ pre suf, s.data = pre ++ (goTrimSpace s).data ++ suf ∧
      (∀ c ∈ pre, goIsSpace c = true) ∧ (∀ c ∈ suf, goIsSpace c = true) :=
  trimBoth_decomp goIsSpace s.data

theorem charIn_v_eq {d : Char} (hd : charIn "v" d = true) : d = 'v' :=
  List.mem_singleton.mp (of_decide_eq_true hd)

theorem charIn_V_eq {d : Char} (hd : charIn "V" d = true) : d = 'V' :=
  List.mem_singleton.mp (of_decide_eq_true hd)

/-- `trimString _ ["v", "V"]` removes only leading/trailing `v`, `V` and
whitespace characters. -/
theorem trimString_vV_decomp (x : String) :
    ∃ pre suf, x.data = pre ++ (trimString x ["v", "V"]).data ++ suf ∧
      ∀ c ∈ pre ++ suf, c = 'v' ∨ c = 'V' ∨ goIsSpace c = true := by
  obtain ⟨p1, s1, hx, hv1, hv1'⟩ := goTrimCut_decomp x "v"
  obtain ⟨p2, s2, hy, hv2, hv2'⟩ := goTrimCut_decomp (goTrimCut x "v") "V"
  obtain ⟨p3, s3, hz, hv3, hv3'⟩ := goTrimSpace_decomp (goTrimCut (goTrimCut x "v") "V")
  have hw : (trimString x ["v", "V"]).data =
      (goTrimSpace (goTrimCut (goTrimCut x "v") "V")).data := rfl
  refine ⟨p1 ++ (p2 ++ p3), s3 ++ (s2 ++ s1), ?_, ?_⟩
  · calc x.data = p1 ++ (goTrimCut x "v").data ++ s1 := hx
      _ = p1 ++ (p2 ++ (goTrimCut (goTrimCut x "v") "V").data ++ s2) ++ s1 := by rw [← hy]
      _ = p1 ++ (p2 ++ (p3 ++ (goTrimSpace (goTrimCut (goTrimCut x "v") "V")).data ++ s3) ++ s2)
            ++ s1 := by rw [← hz]
      _ = (p1 ++ (p2 ++ p3)) ++ (trimString x ["v", "V"]).data ++ (s3 ++ (s2 ++ s1)) := by
            rw [hw]; simp [List.append_assoc]
  · intro c hc
    rcases List.mem_append.mp hc with h | h
    · rcases List.mem_append.mp h with h1 | h23
      · exact Or.inl (charIn_v_eq (hv1 c h1))
      · rcases List.mem_append.mp h23 with h2 | h3
        · exact Or.inr (Or.inl (charIn_V_eq (hv2 c h2)))
        · exact Or.inr (Or.inr (hv3 c h3))
    · rcases List.mem_append.mp h with h3 | h21
      · exact Or.inr (Or.inr (hv3' c h3))
      · rcases List.mem_append.mp h21 with h2 | h1
        · exact Or.inr (Or.inl (charIn_V_eq (hv2' c h2)))
        · exact Or.inl (charIn_v_eq (hv1' c h1))

/-- C7, counterexample: the claim allows only a single leading `v`/`V` to be
removed, but the code uses `strings.Trim`, which also strips trailing
characters: a node reporting kubelet version `"v1.27.3v"` yields `"1.27.3"`,
not the `"1.27.3v"` the claim requires. -/
theorem C7_counterexample_trailing_v :
    (NodeInfo sampleNodeTrim).KubeletVersion = "1.27.3" ∧
    (NodeInfo sampleNodeTrim).KubeletVersion ≠ "1.27.3v" :=
  ⟨rfl, by decide⟩

/-- C7 (amended): the kubelet version is the node's reported version after
distro-suffix trimming with leading *and trailing* runs of `v`/`V` characters
and surrounding whitespace removed (Go `strings.Trim` with cutsets `"v"` and
`"V"`, then `TrimSpace`); the BOM cluster version is obtained from the server
version the same way.  Nothing in the middle of the string is touched. -/
theorem C7_trim_both_ends (node : Node) (components : List Component)
    (nodesInfo : List BomNodeInfo) (name version : String) :
    (∃ pre suf, (k8sVersions node.nodeInfo.kubeletVersion).data =
        pre ++ (NodeInfo node).KubeletVersion.data ++ suf ∧
        ∀ c ∈ pre ++ suf, c = 'v' ∨ c = 'V' ∨ goIsSpace c = true) ∧
    (∃ pre suf, version.data =
        pre ++ (getClusterBomInfo components nodesInfo name version).Version.data ++ suf ∧
        ∀ c ∈ pre ++ suf, c = 'v' ∨ c = 'V' ∨ goIsSpace c = true) :=
  ⟨trimString_vV_decomp (k8sVersions node.nodeInfo.kubeletVersion),
   trimString_vV_decomp version⟩

theorem str_length_pos {s : String} (h : s ≠ "") : 0 < s.length := by
  rcases s with ⟨l⟩
  cases l with
  | nil => exact absurd rfl h
  | cons c t => simp [String.length]

/-- A nonempty result of `upstreamOrgByNameAux` is the key of a table row whose
member list matches the component. -/
theorem upstreamOrgByNameAux_mem (v : String) :
    ∀ (l : List (String × String)) (key : String), upstreamOrgByNameAux v l = key → key ≠ "" →
      ∃ members, (key, members) ∈ l ∧ orgMemberMatch members v = true := by
  intro l
  induction l with
  | nil =>
    intro key h hne
    simp [upstreamOrgByNameAux] at h
    exact absurd h.symm hne
  | cons p t ih =>
    intro key h hne
    rcases p with ⟨k, ms⟩
    by_cases hm : orgMemberMatch ms v = true
    · have hk : k = key := by simpa [upstreamOrgByNameAux, hm] using h
      exact ⟨ms, by rw [← hk]; exact List.mem_cons_self _ _, hm⟩
    · have h' : upstreamOrgByNameAux v t = key := by
        simpa [upstreamOrgByNameAux, hm] using h
      obtain ⟨ms', hmem, hmatch⟩ := ih key h' hne
      exact ⟨ms', List.mem_cons_of_mem _ hmem, hmatch⟩

/-- C6: component naming first maps the raw label value through the repo-name
table (identity when absent), then prefixes the owning organization — found by
case-insensitive exact member match — as `org/name`; `"api server"` resolves
to `"k8s.io/apiserver"` and the core-component type table classifies
`"apiserver"` as `"controlPlane"`. -/
theorem C6_component_naming :
    componentFullName "api server" = "k8s.io/apiserver" ∧
    lookupA CoreComponentPropertyType (upstreamRepoByName "api server") = some "controlPlane" ∧
    upstreamOrgByName "KUBELET" = "k8s.io" ∧
    (∀ v, componentFullName v =
      if upstreamOrgByName (upstreamRepoByName v) = "" then upstreamRepoByName v
      else upstreamOrgByName (upstreamRepoByName v) ++ "/" ++ upstreamRepoByName v) ∧
    (∀ v key, upstreamOrgByName v = key → key ≠ "" →
      ∃ members, (key, members) ∈ UpstreamOrgName ∧ orgMemberMatch members v = true) ∧
    (∀ v, lookupA UpstreamRepoName v = none → upstreamRepoByName v = v) := by
  refine ⟨by decide, by decide, by decide, ?_, ?_, ?_⟩
  · intro v
    by_cases h : upstreamOrgByName (upstreamRepoByName v) = ""
    · simp [componentFullName, h]
    · have hpos : 0 < (upstreamOrgByName (upstreamRepoByName v)).length := str_length_pos h
      simp [componentFullName, h, hpos]
  · intro v key h hne
    exact upstreamOrgByNameAux_mem v UpstreamOrgName key h hne
  · intro v h
    simp [upstreamRepoByName, h]

/-- C6, witness: the theorem applied at the concrete inputs `"coredns"`
(absent from the repo table) and `"etcd/v3"` (owned by `go.etcd.io`). -/
theorem C6_component_naming_witness :
    lookupA UpstreamRepoName "coredns" = none ∧ upstreamRepoByName "coredns" = "coredns" ∧
    upstreamOrgByName "etcd/v3" = "go.etcd.io" ∧
    ∃ members, ("go.etcd.io", members) ∈ UpstreamOrgName ∧
      orgMemberMatch members "etcd/v3" = true := by
  refine ⟨by decide, C6_component_naming.2.2.2.2.2 "coredns" (by decide), by decide, ?_⟩
  exact C6_component_naming.2.2.2.2.1 "etcd/v3" "go.etcd.io" (by decide) (by decide)

theorem lookupA_isSome_of_mem {α β : Type} [DecidableEq α] {m : List (α × β)} {k : α} {v : β}
    (h : (k, v) ∈ m) : ∃ w, lookupA m k = some w := by
  induction m with
  | nil => cases h
  | cons p t ih =>
    rcases p with ⟨k', v'⟩
    by_cases hk : k' = k
    · exact ⟨v', by simp [lookupA, hk]⟩
    · rcases List.mem_cons.mp h with heq | hmem
      · cases heq; exact absurd rfl hk
      · obtain ⟨w, hw⟩ := ih hmem
        exact ⟨w, by simp [lookupA, hk, hw]⟩

theorem mem_getWildcardServers_aux (d : String) :
    ∀ (auths : List (String × DockerAuth)) (acc : List String),
      d ∈ auths.foldl (fun acc p => if goStartsWith p.1 "*." then acc ++ [p.1] else acc) acc →
      d ∈ acc ∨ (goStartsWith d "*." = true ∧ ∃ a, (d, a) ∈ auths) := by
  intro auths
  induction auths with
  | nil => intro acc h; exact Or.inl h
  | cons p t ih =>
    intro acc h
    rcases ih _ h with hacc | ⟨hpre, a, ha⟩
    · by_cases hw : goStartsWith p.1 "*." = true
      · have hacc' : d ∈ acc ∨ d = p.1 := by simpa [hw] using hacc
        rcases hacc' with h1 | h2
        · exact Or.inl h1
        · subst h2
          exact Or.inr ⟨hw, p.2, by cases p with | mk a b => exact List.mem_cons_self _ _⟩
      · simp only [Bool.not_eq_true] at hw
        exact Or.inl (by simpa [hw] using hacc)
    · exact Or.inr ⟨hpre, a, List.mem_cons_of_mem _ ha⟩

theorem mem_getWildcardServers {d : String} {auths : List (String × DockerAuth)}
    (h : d ∈ GetWildcardServers auths) :
    goStartsWith d "*." = true ∧ ∃ a, (d, a) ∈ auths := by
  rcases mem_getWildcardServers_aux d auths [] h with habs | hgood
  · cases habs
  · exact hgood

theorem matchSubDomain_mem {ws : List String} {s d : String}
    (h : matchSubDomain ws s = d) (hne : d ≠ "") :
    d ∈ ws ∧ goEndsWith s (goReplaceStarOnce d) = true := by
  induction ws with
  | nil => exact absurd h.symm hne
  | cons w t ih =>
    by_cases hw : goEndsWith s (goReplaceStarOnce w) = true
    · have : w = d := by simpa [matchSubDomain, hw] using h
      subst this
      exact ⟨List.mem_cons_self _ _, hw⟩
    · have h' : matchSubDomain t s = d := by simpa [matchSubDomain, hw] using h
      obtain ⟨hmem, hsuf⟩ := ih h'
      exact ⟨List.mem_cons_of_mem _ hmem, hsuf⟩

theorem matchSubDomain_empty {ws : List String} {s : String}
    (h : ∀ d ∈ ws, goEndsWith s (goReplaceStarOnce d) = false) :
    matchSubDomain ws s = "" := by
  induction ws with
  | nil => rfl
  | cons w t ih =>
    have hw := h w (List.mem_cons_self _ _)
    simp only [matchSubDomain, hw]
    simp only [Bool.false_eq_true, if_false]
    exact ih (fun d hd => h d (List.mem_cons_of_mem _ hd))

/-- C5: resolving an image reference whose registry server is determined:
an exact key wins; otherwise a `*.`-prefixed key whose starred-out domain is a
suffix of the host is used; otherwise no credential and no error. -/
theorem C5_auth_resolution (getServerFromImageRef : String → Except String String)
    (imageRef server : String) (auths : List (String × DockerAuth))
    (h : getServerFromImageRef imageRef = Except.ok server) :
    (∀ a, lookupA auths server = some a →
      MapContainerNamesToDockerAuths getServerFromImageRef imageRef auths =
        Except.ok (some a)) ∧
    (lookupA auths server = none →
      ∀ d, matchSubDomain (GetWildcardServers auths) server = d → d ≠ "" →
      ∃ a, MapContainerNamesToDockerAuths getServerFromImageRef imageRef auths =
          Except.ok (some a) ∧
        lookupA auths d = some a ∧ goStartsWith d "*." = true ∧
        goEndsWith server (goReplaceStarOnce d) = true) ∧
    (lookupA auths server = none →
      (∀ d ∈ GetWildcardServers auths, goEndsWith server (goReplaceStarOnce d) = false) →
      MapContainerNamesToDockerAuths getServerFromImageRef imageRef auths =
        Except.ok none) := by
  refine ⟨?_, ?_, ?_⟩
  · intro a ha
    simp [MapContainerNamesToDockerAuths, h, ha]
  · intro hnone d hd hdne
    obtain ⟨hmem, hsuf⟩ := matchSubDomain_mem hd hdne
    obtain ⟨hstar, a0, ha0⟩ := mem_getWildcardServers hmem
    obtain ⟨w, hw⟩ := lookupA_isSome_of_mem ha0
    refine ⟨w, ?_, hw, hstar, hsuf⟩
    have hlen : 0 < (GetWildcardServers auths).length :=
      List.length_pos.mpr (List.ne_nil_of_mem hmem)
    have hdlen : 0 < d.length := str_length_pos hdne
    simp [MapContainerNamesToDockerAuths, h, hnone, hlen, hd, hdlen, hw]
  · intro hnone hall
    have hmatch : matchSubDomain (GetWildcardServers auths) server = "" :=
      matchSubDomain_empty hall
    by_cases hlen : 0 < (GetWildcardServers auths).length
    · simp [MapContainerNamesToDockerAuths, h, hnone, hlen, hmatch]
    · simp [MapContainerNamesToDockerAuths, h, hnone, hlen]

/-- C5, witness: the theorem applied to a mapping with key `"registry.io"` and
wildcard key `"*.example.com"`: exact hit, wildcard hit at
`"sub.example.com"`, and no match at `"other.org"`. -/
theorem C5_auth_resolution_witness :
    MapContainerNamesToDockerAuths identServer "registry.io" wildAuths =
      Except.ok (some authA) ∧
    (∃ a, MapContainerNamesToDockerAuths identServer "sub.example.com" wildAuths =
        Except.ok (some a) ∧
      lookupA wildAuths "*.example.com" = some a ∧ goStartsWith "*.example.com" "*." = true ∧
      goEndsWith "sub.example.com" (goReplaceStarOnce "*.example.com") = true) ∧
    MapContainerNamesToDockerAuths identServer "other.org" [("*.example.com", authB)] =
      Except.ok none := by
  refine ⟨?_, ?_, ?_⟩
  · exact (C5_auth_resolution identServer "registry.io" "registry.io" wildAuths rfl).1
      authA (by decide)
  · exact (C5_auth_resolution identServer "sub.example.com" "sub.example.com" wildAuths
      rfl).2.1 (by decide) "*.example.com" (by decide) (by decide)
  · exact (C5_auth_resolution identServer "other.org" "other.org"
      [("*.example.com", authB)] rfl).2.2 (by decide) (by decide)

theorem lookupA_setA_self {α β : Type} [DecidableEq α] (m : List (α × β)) (k : α) (v : β) :
    lookupA (setA m k v) k = some v := by
  induction m with
  | nil => simp [setA, lookupA]
  | cons p t ih =>
    rcases p with ⟨k', v'⟩
    by_cases hk : k' = k
    · simp [setA, lookupA, hk]
    · simp [setA, lookupA, hk, ih]

theorem lookupA_setA_other {α β : Type} [DecidableEq α] (m : List (α × β)) (k k' : α) (v : β)
    (h : k ≠ k') : lookupA (setA m k v) k' = lookupA m k' := by
  induction m with
  | nil => simp [setA, lookupA, h]
  | cons p t ih =>
    rcases p with ⟨k0, v0⟩
    by_cases hk : k0 = k
    · subst hk
      simp [setA, lookupA, h]
    · simp [setA, lookupA, hk, ih]

/-- The interleaved decode-and-merge inner loop equals decoding first and then
folding the pure merge. -/
theorem mergeConfigAuths_eq (serverOf : String → Except String String) (multi : Bool) :
    ∀ (entries auths : List (String × DockerAuth)),
      mergeConfigAuths serverOf multi auths entries =
        (resolveServers serverOf entries).map (fun es => mergeFold multi auths es) := by
  intro entries
  induction entries with
  | nil => intro auths; rfl
  | cons p t ih =>
    intro auths
    rcases p with ⟨k, a⟩
    cases hk : serverOf k with
    | error e => simp [mergeConfigAuths, resolveServers, hk, Except.map]
    | ok s =>
      simp only [mergeConfigAuths, resolveServers, hk]
      rw [ih (mergeAuth auths multi s a)]
      cases hr : resolveServers serverOf t with
      | error e => rfl
      | ok l => rfl

/-- The whole merge loop equals collecting the decoded entry stream and then
folding the pure merge over it. -/
theorem mapDockerAuthsAux_eq
    (readConfig : String → Bool → Except String (List (String × DockerAuth)))
    (serverOf : String → Except String String) (multi : Bool) :
    ∀ (secrets : List Secret) (auths : List (String × DockerAuth)),
      mapDockerAuthsAux readConfig serverOf multi secrets auths =
        (collectAuthEntries readConfig serverOf secrets).map
          (fun es => mergeFold multi auths es) := by
  intro secrets
  induction secrets with
  | nil => intro auths; rfl
  | cons secret rest ih =>
    intro auths
    rcases secret with ⟨st, dt⟩
    have hstep : ∀ (data : String) (legacy : Bool),
        (match readConfig data legacy with
          | .error e => .error e
          | .ok cfgAuths =>
            match mergeConfigAuths serverOf multi auths cfgAuths with
            | .error e => .error e
            | .ok auths' => mapDockerAuthsAux readConfig serverOf multi rest auths') =
        ((match readConfig data legacy with
          | .error e => .error e
          | .ok cfgAuths =>
            match resolveServers serverOf cfgAuths with
            | .error e => .error e
            | .ok entries =>
              (collectAuthEntries readConfig serverOf rest).map (fun l => entries ++ l)) :
          Except String (List (String × DockerAuth))).map
            (fun es => mergeFold multi auths es) := by
      intro data legacy
      cases hrc : readConfig data legacy with
      | error e => rfl
      | ok cfgAuths =>
        simp only
        rw [mergeConfigAuths_eq]
        cases hrs : resolveServers serverOf cfgAuths with
        | error e => rfl
        | ok entries =>
          simp only [Except.map]
          rw [ih (mergeFold multi auths entries)]
          cases hce : collectAuthEntries readConfig serverOf rest with
          | error e => rfl
          | ok l =>
            simp [Except.map, mergeFold, List.foldl_append]
    cases st with
    | dockerConfigJson =>
      cases dt with
      | none => exact ih auths
      | some data => exact hstep data false
    | dockercfg =>
      cases dt with
      | none => exact ih auths
      | some data => exact hstep data true
    | other =>
      cases dt with
      | none => exact ih auths
      | some data => exact ih auths

/-- Looking a server up in the merged map folds the same-server entries with
comma concatenation. -/
theorem lookupA_mergeFold (s : String) :
    ∀ (es auths : List (String × DockerAuth)),
      lookupA (mergeFold true auths es) s =
        mergedInto (lookupA auths s) ((es.filter (fun p => p.1 = s)).map Prod.snd) := by
  intro es
  induction es with
  | nil => intro auths; rfl
  | cons p t ih =>
    intro auths
    rcases p with ⟨s', b⟩
    have hfold : mergeFold true auths ((s', b) :: t) =
        mergeFold true (mergeAuth auths true s' b) t := rfl
    by_cases hs : s' = s
    · subst hs
      rw [hfold, ih]
      have hlk : lookupA (mergeAuth auths true s' b) s' =
          (match lookupA auths s' with
            | some a => some (concatAuth a b)
            | none => some b) := by
        unfold mergeAuth
        cases lookupA auths s' with
        | some a => simp [lookupA_setA_self, concatAuth]
        | none => simp [lookupA_setA_self]
      rw [hlk]
      have hfilter : ((s', b) :: t).filter (fun p => p.1 = s') =
          (s', b) :: t.filter (fun p => p.1 = s') := by
        simp [List.filter]
      rw [hfilter]
      cases lookupA auths s' with
      | some a => rfl
      | none => rfl
    · rw [hfold, ih]
      have hlk : lookupA (mergeAuth auths true s' b) s = lookupA auths s := by
        unfold mergeAuth
        cases lookupA auths s' with
        | some a => simp [lookupA_setA_other _ _ _ _ hs]
        | none => simp [lookupA_setA_other _ _ _ _ hs]
      rw [hlk]
      have hfilter : ((s', b) :: t).filter (fun p => p.1 = s) =
          t.filter (fun p => p.1 = s) := by
        simp [List.filter, hs]
      rw [hfilter]

/-- C4: with multi-secret support, the merge map binds a server contributed by
exactly one decoded entry to that credential unchanged, and a server hit
twice to the comma-concatenation (earlier secret first) of both usernames and
passwords. -/
theorem C4_multi_secret_merge
    (readConfig : String → Bool → Except String (List (String × DockerAuth)))
    (serverOf : String → Except String String) (secrets : List Secret)
    (es : List (String × DockerAuth))
    (h : collectAuthEntries readConfig serverOf secrets = Except.ok es) :
    ∃ m, mapDockerRegistryServersToAuths readConfig serverOf secrets true = Except.ok m ∧
      (∀ s, lookupA m s = mergedInto none ((es.filter (fun p => p.1 = s)).map Prod.snd)) ∧
      (∀ s a, (es.filter (fun p => p.1 = s)).map Prod.snd = [a] → lookupA m s = some a) ∧
      (∀ s a b, (es.filter (fun p => p.1 = s)).map Prod.snd = [a, b] →
        lookupA m s = some ⟨a.Username ++ "," ++ b.Username,
                             a.Password ++ "," ++ b.Password⟩) := by
  refine ⟨mergeFold true [] es, ?_, ?_, ?_, ?_⟩
  · unfold mapDockerRegistryServersToAuths
    rw [mapDockerAuthsAux_eq, h]
    rfl
  · intro s
    exact lookupA_mergeFold s es []
  · intro s a hfa
    rw [lookupA_mergeFold s es [], hfa]
    rfl
  · intro s a b hfab
    rw [lookupA_mergeFold s es [], hfab]
    rfl

/-- C4, witness: two secrets both contributing `registry.io` merge to
comma-joined credentials while the singleton `quay.io` entry is unchanged. -/
theorem C4_multi_secret_merge_witness :
    collectAuthEntries readCfg0 serverOf0 secrets0 = Except.ok entries0 ∧
    ∃ m, mapDockerRegistryServersToAuths readCfg0 serverOf0 secrets0 true = Except.ok m ∧
      lookupA m "registry.io" = some ⟨"alice,bob", "pw1,pw2"⟩ ∧
      lookupA m "quay.io" = some authC := by
  refine ⟨rfl, ?_⟩
  obtain ⟨m, hm, hall, hsingle, hpair⟩ :=
    C4_multi_secret_merge readCfg0 serverOf0 secrets0 entries0 rfl
  refine ⟨m, hm, ?_, ?_⟩
  · have := hpair "registry.io" authA authB (by decide)
    simpa [authA, authB] using this
  · exact hsingle "quay.io" authC (by decide)

/-- Go-map insertion of statuses makes lookup find the *last* matching status. -/
theorem lookupA_buildStatusMap (img : String) :
    ∀ (sts : List ContainerStatus) (m0 : List (String × String)),
      lookupA (sts.foldl (fun m st => setA m st.image st.imageID) m0) img =
        match sts.reverse.find? (fun st => st.image == img) with
        | some st => some st.imageID
        | none => lookupA m0 img := by
  intro sts
  induction sts with
  | nil => intro m0; rfl
  | cons st t ih =>
    intro m0
    have hfold : (st :: t).foldl (fun m s => setA m s.image s.imageID) m0 =
        t.foldl (fun m s => setA m s.image s.imageID) (setA m0 st.image st.imageID) := rfl
    rw [hfold, ih]
    have hrev : (st :: t).reverse = t.reverse ++ [st] := by simp
    rw [hrev, List.find?_append]
    cases hfind : t.reverse.find? (fun s => s.image == img) with
    | some s => simp [Option.orElse]
    | none =>
      simp only [Option.orElse, Option.none_orElse]
      by_cases himg : st.image = img
      · subst himg
        simp [List.find?, lookupA_setA_self]
      · have hne : (st.image == img) = false := beq_false_of_ne himg
        simp [List.find?, hne, lookupA_setA_other _ _ _ _ himg]

/-- Outside the single-container/single-status special case, `imageIDsOf` maps
each container through the status map with declared-image fallback. -/
theorem imageIDsOf_general (cs : List ContainerSpec) (sts : List ContainerStatus)
    (h : ¬(cs.length = 1 ∧ sts.length = 1)) :
    imageIDsOf cs sts = cs.map (fun container =>
      match lookupA (buildStatusMap sts) container.image with
      | some id => getImageID id
      | none => getImageID container.image) := by
  rcases cs with _ | ⟨c, cs'⟩
  · rfl
  · rcases cs' with _ | ⟨c2, cs''⟩
    · rcases sts with _ | ⟨st, sts'⟩
      · rfl
      · rcases sts' with _ | ⟨st2, sts''⟩
        · exact absurd ⟨rfl, rfl⟩ h
        · rfl
    · rfl

/-- `imageIDsOf` yields one id per spec container. -/
theorem imageIDsOf_length (cs : List ContainerSpec) (sts : List ContainerStatus) :
    (imageIDsOf cs sts).length = cs.length := by
  rcases cs with _ | ⟨c, cs'⟩
  · rfl
  · rcases cs' with _ | ⟨c2, cs''⟩
    · rcases sts with _ | ⟨st, sts'⟩
      · simp [imageIDsOf]
      · rcases sts' with _ | ⟨st2, sts''⟩
        · rfl
        · simp [imageIDsOf]
    · simp [imageIDsOf]

/-- C8: one id per spec container; with exactly one container and one status
the status image id is used positionally; otherwise each container correlates
to the (last) status entry with the same declared image, falling back to the
declared image itself. -/
theorem C8_status_correlation (pod : Pod) :
    (getImageIDsByStatuses pod).length = pod.specContainers.length ∧
    (∀ (c : ContainerSpec) (st : ContainerStatus),
      pod.specContainers = [c] → pod.containerStatuses = [st] →
      getImageIDsByStatuses pod = [getImageID st.imageID]) ∧
    (¬(pod.specContainers.length = 1 ∧ pod.containerStatuses.length = 1) →
      ∀ (i : Nat) (c : ContainerSpec), pod.specContainers[i]? = some c →
        (getImageIDsByStatuses pod)[i]? = some
          (match pod.containerStatuses.reverse.find? (fun st => st.image == c.image) with
            | some st => getImageID st.imageID
            | none => getImageID c.image)) := by
  refine ⟨imageIDsOf_length _ _, ?_, ?_⟩
  · intro c st h1 h2
    rw [getImageIDsByStatuses, h1, h2]
    rfl
  · intro h i c hc
    rw [getImageIDsByStatuses, imageIDsOf_general _ _ h]
    rw [List.getElem?_map, hc]
    simp only [Option.map_some']
    rw [buildStatusMap, lookupA_buildStatusMap]
    cases pod.containerStatuses.reverse.find? (fun st => st.image == c.image) with
    | some st => rfl
    | none => rfl

/-- C8, witness: a two-container pod with one matching status entry takes the
status id for the matching container and falls back to the declared image for
the other; a singleton pod correlates positionally despite differing images. -/
theorem C8_status_correlation_witness :
    (¬((Pod.mk "p2" "ns" [] [⟨"img-a"⟩, ⟨"img-b"⟩]
        [⟨"img-a", "sha256:" ++ hexDigest64⟩]).specContainers.length = 1 ∧
       (Pod.mk "p2" "ns" [] [⟨"img-a"⟩, ⟨"img-b"⟩]
        [⟨"img-a", "sha256:" ++ hexDigest64⟩]).containerStatuses.length = 1)) ∧
    (getImageIDsByStatuses (Pod.mk "p2" "ns" [] [⟨"img-a"⟩, ⟨"img-b"⟩]
        [⟨"img-a", "sha256:" ++ hexDigest64⟩]))[0]? =
      some ("sha256:" ++ hexDigest64) ∧
    (getImageIDsByStatuses (Pod.mk "p2" "ns" [] [⟨"img-a"⟩, ⟨"img-b"⟩]
        [⟨"img-a", "sha256:" ++ hexDigest64⟩]))[1]? = some "" ∧
    (Pod.mk "p1" "ns" [] [⟨"img-a"⟩] [⟨"other-image", "sha256:" ++ hexDigest64⟩]).specContainers
      = [⟨"img-a"⟩] ∧
    getImageIDsByStatuses (Pod.mk "p1" "ns" [] [⟨"img-a"⟩]
        [⟨"other-image", "sha256:" ++ hexDigest64⟩]) = ["sha256:" ++ hexDigest64] := by
  have h2 := C8_status_correlation (Pod.mk "p2" "ns" [] [⟨"img-a"⟩, ⟨"img-b"⟩]
    [⟨"img-a", "sha256:" ++ hexDigest64⟩])
  have h1 := C8_status_correlation (Pod.mk "p1" "ns" [] [⟨"img-a"⟩]
    [⟨"other-image", "sha256:" ++ hexDigest64⟩])
  refine ⟨by decide, ?_, ?_, rfl, ?_⟩
  · have := h2.2.2 (by decide) 0 ⟨"img-a"⟩ rfl
    simpa using this
  · have := h2.2.2 (by decide) 1 ⟨"img-b"⟩ rfl
    simpa using this
  · exact h1.2.1 ⟨"img-a"⟩ ⟨"other-image", "sha256:" ++ hexDigest64⟩ rfl rfl

/-- A pod listing that always fails with a plain transport error. -/
def listPodsErr : String → String → Except KErr (List Pod) :=
  fun _ _ => Except.error (KErr.other "boom")

/-- C3, counterexample: the claim makes a non-access pod-listing error fatal to
the component phase, but `collectComponents` executes `continue` on every
listing error: with a single selector whose listing fails with a transport
error it returns an empty component list and no error. -/
theorem C3_counterexample_swallowed_error :
    collectComponents sampleParse listPodsErr [("kube-system", "component")] =
      Except.ok [] := rfl

/-- C3 (amended): `CollectNodes` degrades a not-found/forbidden listing error
to an empty node list and propagates every other error; `collectComponents`
(and hence `CreateBomComponents`) swallows *every* pod-listing error — an
erroring selector just contributes no components — and never returns an
error. -/
theorem C3_listing_error_handling
    (parseReference : String → Except String ImageRef)
    (listPods : String → String → Except KErr (List Pod))
    (labels rest : List (String × String)) (ns sel nsArg : String)
    (isOpenShift : Bool) (components : List Component) (e : KErr) :
    ((e.isNotFound || e.isForbidden) = true →
      CollectNodes (Except.error e) components = Except.ok []) ∧
    ((e.isNotFound || e.isForbidden) = false →
      CollectNodes (Except.error e) components = Except.error e) ∧
    (∃ l, collectComponents parseReference listPods labels = Except.ok l) ∧
    (listPods sel ns = Except.error e →
      collectComponents parseReference listPods ((ns, sel) :: rest) =
        collectComponents parseReference listPods rest) ∧
    (∃ l, CreateBomComponents parseReference listPods isOpenShift nsArg = Except.ok l) := by
  refine ⟨?_, ?_, ⟨_, rfl⟩, ?_, ?_⟩
  · intro h
    simp [CollectNodes, h]
  · intro h
    simp [CollectNodes, h]
  · intro h
    simp [collectComponents, h]
  · unfold CreateBomComponents
    simp [collectComponents]

/-- C3, witness: the theorem at a not-found node error, a transport node
error, and an erroring selector. -/
theorem C3_listing_error_handling_witness :
    CollectNodes (Except.error KErr.notFound) [] = Except.ok [] ∧
    CollectNodes (Except.error (KErr.other "boom")) [] = Except.error (KErr.other "boom") ∧
    (∃ l, collectComponents sampleParse listPodsErr [("ns", "sel")] = Except.ok l) ∧
    collectComponents sampleParse listPodsErr [("ns", "sel")] =
      collectComponents sampleParse listPodsErr [] ∧
    (∃ l, CreateBomComponents sampleParse listPodsErr false "" = Except.ok l) := by
  have hnf := C3_listing_error_handling sampleParse listPodsErr [("ns", "sel")] [] "ns" "sel" ""
    false [] KErr.notFound
  have hot := C3_listing_error_handling sampleParse listPodsErr [("ns", "sel")] [] "ns" "sel" ""
    false [] (KErr.other "boom")
  exact ⟨hnf.1 rfl, hot.2.1 rfl, hot.2.2.1, hot.2.2.2.1 rfl, hot.2.2.2.2⟩

/-- If every (container, id) pair fails to parse, the container loop of
`PodInfo` produces nothing. -/
theorem buildContainers_nil (parseReference : String → Except String ImageRef) :
    ∀ (cs : List ContainerSpec) (ids : List String),
      (∀ (i : Nat) (c : ContainerSpec) (id : String), cs[i]? = some c → ids[i]? = some id →
        ∃ err, GetContainer parseReference c.image id = Except.error err) →
      buildContainers parseReference cs ids = [] := by
  intro cs
  induction cs with
  | nil => intro ids _; rfl
  | cons c cs' ih =>
    intro ids h
    cases ids with
    | nil => rfl
    | cons id ids' =>
      obtain ⟨err, herr⟩ := h 0 c id (by simp) (by simp)
      have hrest : buildContainers parseReference cs' ids' = [] :=
        ih ids' (fun i c' id' hc hid => h (i + 1) c' id' (by simpa using hc) (by simpa using hid))
      simp [buildContainers, herr, hrest]

/-- C10: `PodInfo` always succeeds; a pod whose containers all fail to parse
still yields a component with an empty container list, and that component is
included by `collectComponents`. -/
theorem C10_podinfo_never_fails (parseReference : String → Except String ImageRef)
    (pod : Pod) (labelSelector : String) :
    ∃ comp, PodInfo parseReference pod labelSelector = Except.ok comp ∧
      ((∀ (i : Nat) (c : ContainerSpec) (id : String),
          pod.specContainers[i]? = some c → (getImageIDsByStatuses pod)[i]? = some id →
          ∃ err, GetContainer parseReference c.image id = Except.error err) →
        comp.Containers = []) ∧
      (∀ ns, collectComponents parseReference (fun _ _ => Except.ok [pod])
          [(ns, labelSelector)] = Except.ok [comp]) := by
  refine ⟨_, rfl, ?_, ?_⟩
  · intro h
    show buildContainers parseReference pod.specContainers (getImageIDsByStatuses pod) = []
    exact buildContainers_nil parseReference pod.specContainers (getImageIDsByStatuses pod) h
  · intro ns
    rfl

/-- A pod with one container and no statuses whose id resolves to `""`, so
every container fails digest parsing. -/
def failPod : Pod := ⟨"p0", "ns0", [], [⟨"nginx"⟩], []⟩

/-- C10, witness: the theorem at `failPod`, whose single container fails, so
the component is emitted with no containers and still collected. -/
theorem C10_podinfo_never_fails_witness :
    ∃ comp, PodInfo sampleParse failPod "k8s-app" = Except.ok comp ∧ comp.Containers = [] ∧
      collectComponents sampleParse (fun _ _ => Except.ok [failPod]) [("ns0", "k8s-app")] =
        Except.ok [comp] := by
  obtain ⟨comp, hok, hnil, hinc⟩ := C10_podinfo_never_fails sampleParse failPod "k8s-app"
  refine ⟨comp, hok, hnil ?_, hinc "ns0"⟩
  intro i c id hc hid
  cases i with
  | zero =>
    have hc0 : failPod.specContainers[0]? = some (⟨"nginx"⟩ : ContainerSpec) := rfl
    rw [hc0] at hc
    injection hc with hceq
    have hid0 : (getImageIDsByStatuses failPod)[0]? = some "" := rfl
    rw [hid0] at hid
    injection hid with hideq
    rw [← hceq, ← hideq]
    exact ⟨ContainerError.parseDigest "" "nginx", rfl⟩
  | succ n =>
    have hnone : failPod.specContainers[n + 1]? = none := rfl
    rw [hnone] at hc
    exact Option.noConfusion hc

/-- A successful `extractImagesLoop` returns exactly the present string
`image` fields, in entry order. -/
theorem extractImagesLoop_spec :
    ∀ (items : List UVal) (l : List String), extractImagesLoop items = Except.ok l →
      l = items.filterMap imageOfEntry := by
  intro items
  induction items with
  | nil =>
    intro l h
    injection h with h1
    simp [← h1]
  | cons item rest ih =>
    intro l h
    cases item with
    | map fields =>
      cases hlk : lookupA fields "image" with
      | none =>
        have h' : extractImagesLoop rest = Except.ok l := by
          simpa [extractImagesLoop, nestedString, nestedField, hlk] using h
        simp [List.filterMap, imageOfEntry, hlk, ih l h']
      | some v =>
        cases v with
        | str s =>
          have h' : (extractImagesLoop rest).map (fun l => s :: l) = Except.ok l := by
            simpa [extractImagesLoop, nestedString, nestedField, hlk] using h
          cases hrest : extractImagesLoop rest with
          | error e => rw [hrest] at h'; cases h'
          | ok l' =>
            rw [hrest] at h'
            injection h' with h1
            simp [← h1, List.filterMap, imageOfEntry, hlk, ih l' hrest]
        | arr items' =>
          simp [extractImagesLoop, nestedString, nestedField, hlk] at h
        | map fields' =>
          simp [extractImagesLoop, nestedString, nestedField, hlk] at h
        | other =>
          simp [extractImagesLoop, nestedString, nestedField, hlk] at h
    | str s => simp [extractImagesLoop] at h
    | arr items' => simp [extractImagesLoop] at h
    | other => simp [extractImagesLoop] at h

/-- A successful `extractImages` call computes `imagesAtPath`. -/
theorem extractImages_spec (obj : List (String × UVal)) (keys : List String) (l : List String)
    (h : extractImages (UVal.map obj) keys = Except.ok l) : l = imagesAtPath obj keys := by
  unfold extractImages nestedSlice at h
  unfold imagesAtPath
  cases hnf : nestedField (UVal.map obj) keys with
  | error e => rw [hnf] at h; cases h
  | ok vOpt =>
    rw [hnf] at h
    cases vOpt with
    | none =>
      injection h with h1
      simp [← h1]
    | some v =>
      cases v with
      | arr items => exact extractImagesLoop_spec items l h
      | str s => cases h
      | map fields => cases h
      | other => cases h

/-- Two resources with the same object and the same resolved pod-template path
extract the same image list. -/
theorem fromResource_images_congr (k1 k2 : String) (o : List (String × UVal))
    (hk : kindKeys k1 = kindKeys k2) :
    (FromResource ⟨k1, o⟩).map Artifact.Images = (FromResource ⟨k2, o⟩).map Artifact.Images := by
  simp only [FromResource]
  rw [hk]
  cases h1 : extractImages (UVal.map o) (kindKeys k2 ++ ["containers"]) with
  | error e => rfl
  | ok c1 =>
    cases h2 : extractImages (UVal.map o) (kindKeys k2 ++ ["ephemeralContainers"]) with
    | error e => rfl
    | ok c2 =>
      cases h3 : extractImages (UVal.map o) (kindKeys k2 ++ ["initContainers"]) with
      | error e => rfl
      | ok c3 =>
        cases h4 : nestedString (UVal.map o) ["metadata", "name"] with
        | error e => rfl
        | ok nameOpt => rfl

/-- C2 (amended): a successful `FromResource` returns the declared images in
the order containers → *ephemeral-containers* → *init-containers* (not
init before ephemeral), read from the kind-dependent pod-template path, an
entry without an `image` field contributing nothing; any kind other than Pod
and CronJob — recognized or not — is traversed through the generic
one-level `spec.template.spec` path, like a Deployment. -/
theorem C2_image_extraction (resource : UnstructuredResource) (a : Artifact)
    (h : FromResource resource = Except.ok a) :
    (a.Images =
      imagesAtPath resource.obj (kindKeys resource.kind ++ ["containers"]) ++
      imagesAtPath resource.obj (kindKeys resource.kind ++ ["ephemeralContainers"]) ++
      imagesAtPath resource.obj (kindKeys resource.kind ++ ["initContainers"])) ∧
    (∀ k : String, k ≠ KindPod → k ≠ KindCronJob →
      (FromResource ⟨k, resource.obj⟩).map Artifact.Images =
        (FromResource ⟨KindDeployment, resource.obj⟩).map Artifact.Images) := by
  constructor
  · simp only [FromResource] at h
    cases h1 : extractImages (UVal.map resource.obj) (kindKeys resource.kind ++ ["containers"]) with
    | error e => rw [h1] at h; cases h
    | ok c1 =>
      rw [h1] at h
      cases h2 : extractImages (UVal.map resource.obj)
          (kindKeys resource.kind ++ ["ephemeralContainers"]) with
      | error e => rw [h2] at h; cases h
      | ok c2 =>
        rw [h2] at h
        cases h3 : extractImages (UVal.map resource.obj)
            (kindKeys resource.kind ++ ["initContainers"]) with
        | error e => rw [h3] at h; cases h
        | ok c3 =>
          rw [h3] at h
          cases h4 : nestedString (UVal.map resource.obj) ["metadata", "name"] with
          | error e => rw [h4] at h; cases h
          | ok nameOpt =>
            rw [h4] at h
            injection h with h5
            rw [← h5]
            rw [← extractImages_spec _ _ _ h1, ← extractImages_spec _ _ _ h2,
              ← extractImages_spec _ _ _ h3]
  · intro k hp hc
    apply fromResource_images_congr
    have hp' : k ≠ "Pod" := hp
    have hc' : k ≠ "CronJob" := hc
    simp [kindKeys, KindPod, KindCronJob, KindDeployment, hp', hc']

/-- C2, witness: the CronJob example with one container image `nginx:1.25` at
`spec.jobTemplate.spec.template.spec.containers[0].image` yields exactly
`["nginx:1.25"]`. -/
theorem C2_image_extraction_witness :
    FromResource cronResource = Except.ok cronArtifact ∧
    cronArtifact.Images =
      imagesAtPath cronResource.obj (kindKeys cronResource.kind ++ ["containers"]) ++
      imagesAtPath cronResource.obj (kindKeys cronResource.kind ++ ["ephemeralContainers"]) ++
      imagesAtPath cronResource.obj (kindKeys cronResource.kind ++ ["initContainers"]) ∧
    cronArtifact.Images = ["nginx:1.25"] :=
  ⟨rfl, (C2_image_extraction cronResource cronArtifact rfl).1, rfl⟩

/-- C2, counterexample: the claim's declaration order is containers →
init-containers → ephemeral-containers, but `FromResource` appends
`ephemeralContainers` before `initContainers`: the mixed Pod yields
`["a", "c", "b"]`, not `["a", "b", "c"]`. -/
theorem C2_counterexample_order :
    (FromResource mixedPodResource).map Artifact.Images = Except.ok ["a", "c", "b"] ∧
    ¬((FromResource mixedPodResource).map Artifact.Images = Except.ok ["a", "b", "c"]) := by
  constructor
  · rfl
  · intro h
    rw [show (FromResource mixedPodResource).map Artifact.Images =
        Except.ok ["a", "c", "b"] from rfl] at h
    injection h with h1
    have : (["a", "c", "b"] : List String) ≠ ["a", "b", "c"] := by decide
    exact this h1

/-- C9: for a resource whose kind is outside the supported workload set,
`getWorkloadPodSpec` yields no pod spec and no error,
`ListImagePullSecretsByPodSpec` on a nil spec yields an empty map and no
error, and so `AuthByResource` returns an empty credential map and no error. -/
theorem C9_unsupported_kind_auth (env : ClusterEnv)
    (msDecode : List (String × UVal) → PodSpec × Option String)
    (resource : UnstructuredResource)
    (h : resource.kind ∉ [KindPod, KindCronJob, KindDeployment, KindReplicaSet,
      KindReplicationController, KindStatefulSet, KindDaemonSet, KindJob]) :
    getWorkloadPodSpec msDecode resource = Except.ok none ∧
    ListImagePullSecretsByPodSpec env none (getNamespaceU resource.obj) = Except.ok [] ∧
    AuthByResource env msDecode resource = Except.ok [] := by
  simp only [List.mem_cons, List.mem_singleton, not_or] at h
  obtain ⟨h1, h2, h3, h4, h5, h6, h7, h8⟩ := h
  have hg : getWorkloadPodSpec msDecode resource = Except.ok none := by
    simp [getWorkloadPodSpec, h1, h2, h3, h4, h5, h6, h7, h8]
  refine ⟨hg, rfl, ?_⟩
  simp [AuthByResource, hg, ListImagePullSecretsByPodSpec]

/-- C9, witness: the theorem at a `Service` resource with a concrete
environment. -/
theorem C9_unsupported_kind_auth_witness :
    serviceResource.kind ∉ [KindPod, KindCronJob, KindDeployment, KindReplicaSet,
      KindReplicationController, KindStatefulSet, KindDaemonSet, KindJob] ∧
    AuthByResource env0 msDecode0 serviceResource = Except.ok [] := by
  refine ⟨by decide, ?_⟩
  exact (C9_unsupported_kind_auth env0 msDecode0 serviceResource (by decide)).2.2

end TrivyK8s
